import Mathlib

/-!
Verification of the NuttX framebuffer character driver, drivers/video/fb.c.

The development is a shallow embedding of the driver in its production
configuration (CONFIG_DEBUG_ASSERTIONS disabled, so DEBUGASSERT compiles to a
no-op).  Pointers into the per-device pan-info array are modelled as integer
indices; an out-of-bounds array access in the C, whose behaviour the language
leaves undefined, is modelled by the Option value none.  Sequential executions
are modelled by explicit state passing; the notifications that poll_notify
would deliver are returned as a list of the ids of the pollfd records that
were signalled POLLOUT.  Machine integers: crefs is an int16_t in the source,
so its updates go through an explicit two-complement wrap; sizes and offsets
(size_t) are Nat.
-/

namespace Fb

/-- Errno value 22, returned negated as -EINVAL by the driver. -/
def EINVAL : Int := 22

/-- Errno value 28, returned negated as -ENOSPC by the driver for both a full
and an empty pan queue. -/
def ENOSPC : Int := 28

/-- Errno value 16, returned negated as -EBUSY when no poll waiter slot is
free. -/
def EBUSY : Int := 16

/-- Errno value 27, returned negated as -EFBIG by fb_write at or past the
end of the framebuffer. -/
def EFBIG : Int := 27

/-- Errno value 12, returned negated as -ENOMEM on allocation failure. -/
def ENOMEM : Int := 12

/-- The sentinel overlay index meaning the primary surface, FB_NO_OVERLAY in
include/nuttx/video/fb.h. -/
def FB_NO_OVERLAY : Int := -1

/-- Two-complement narrowing of an integer to int16_t, the type of the crefs
field of struct fb_chardev_s.  On every target NuttX supports the
implementation-defined narrowing conversion wraps. -/
def wrap16 (x : Int) : Int := (x + 32768) % 65536 - 32768

/-- Array indexing with a C int index: the source computes id = overlay + 1
and uses it as an index.  A negative or too large index is an out-of-bounds
access (undefined behaviour), modelled as none. -/
def listGetI {α : Type} (l : List α) (i : Int) : Option α :=
  if i < 0 then none else l.get? i.toNat

/-- Array update with a C int index; out-of-range updates have no modelled
effect (they are never reached from defined executions). -/
def listSetI {α : Type} (l : List α) (i : Int) (a : α) : List α :=
  if i < 0 then l else l.set i.toNat a

/-- Modelled from the spec: the generic fixed-capacity byte queue collaborator
(struct circbuf_s of nuttx/mm/circbuf, which is not part of this excerpt).
The spec describes it as a fixed-capacity FIFO byte queue exposing
write/peek/skip/used-bytes/is-full, each returning the bytes transferred or a
non-positive failure indicator.  The queued bytes are kept oldest first. -/
structure circbuf_s where
  capacity : Nat
  data : List Nat
deriving DecidableEq

/-- Modelled from the spec: circbuf_init creates an empty queue of the given
capacity in bytes. -/
def circbuf_init (capacity : Nat) : circbuf_s := ⟨capacity, []⟩

/-- Modelled from the spec: number of queued (used) bytes. -/
def circbuf_used (b : circbuf_s) : Nat := b.data.length

/-- Modelled from the spec: free space in bytes. -/
def circbuf_space (b : circbuf_s) : Nat := b.capacity - b.data.length

/-- Modelled from the spec: the queue is full when no space is left. -/
def circbuf_is_full (b : circbuf_s) : Bool := decide (b.capacity ≤ b.data.length)

/-- Modelled from the spec: write appends as many of the given bytes as fit
and returns how many bytes were transferred (0 when the queue is full). -/
def circbuf_write (b : circbuf_s) (bytes : List Nat) : circbuf_s × Nat :=
  let n := min bytes.length (circbuf_space b)
  (⟨b.capacity, b.data ++ bytes.take n⟩, n)

/-- Modelled from the spec: peek copies out up to len of the oldest queued
bytes without consuming them and returns how many bytes were transferred. -/
def circbuf_peek (b : circbuf_s) (len : Nat) : List Nat × Nat :=
  let n := min len (circbuf_used b)
  (b.data.take n, n)

/-- Modelled from the spec: skip discards up to len of the oldest queued
bytes and returns how many bytes were discarded. -/
def circbuf_skip (b : circbuf_s) (len : Nat) : circbuf_s × Nat :=
  let n := min len (circbuf_used b)
  (⟨b.capacity, b.data.drop n⟩, n)

/-- One registered poll waiter (struct pollfd).  The id identifies the waiter
in notification logs; priv mirrors fds->priv, which the driver points at the
waiter slot it occupies, modelled as (pan-info slot index, fds array index). -/
structure pollfd where
  id : Nat
  priv : Option (Nat × Nat)
deriving DecidableEq

/-- One pan-info slot (struct fb_paninfo_s): the pan ring buffer and the
fixed-size array of registered poll waiters
(CONFIG_VIDEO_FB_NPOLLWAITERS entries). -/
structure fb_paninfo_s where
  buf : circbuf_s
  fds : List (Option pollfd)
deriving DecidableEq

/-- The per-device state (struct fb_chardev_s).  The vsync-offset delay is in
clock ticks; wdog models the single per-device watchdog: none when idle,
some (delay, slot index) when armed (wd_start stores the delay and the
address of the pan-info slot passed as the callback argument).  crefs is the
open reference counter (int16_t in the source). -/
structure fb_chardev_s where
  vsyncoffset : Nat
  wdog : Option (Nat × Nat)
  crefs : Int
  paninfo : List fb_paninfo_s
deriving DecidableEq

/-- The hardware vtable as far as the modelled paths read it: priv is the
back-reference to the device state installed by fb_register_device, and the
two optional pan hooks are modelled by the return value they would produce
when invoked (none when the hardware does not implement the hook).  The other
hardware operations are passed to the modelled functions per call. -/
structure fb_vtable_s where
  priv : Option fb_chardev_s
  pandisplay : Option Int
  panoverlay : Option Int
deriving DecidableEq

/-- The ephemeral panel info snapshot (struct fb_panelinfo_s) produced by
fb_get_panelinfo: framebuffer memory contents, its advertised length, the
virtual buffer count and bits per pixel. -/
structure fb_panelinfo_s where
  fbmem : List Nat
  fblen : Nat
  fbcount : Nat
  bpp : Nat
deriving DecidableEq

/-- fb_get_panbuf, fb.c lines 175-183: resolves overlay to slot overlay + 1
and returns that slot's ring buffer.  The DEBUGASSERT on the index is a no-op
in production; an out-of-range index dereferences outside the paninfo array,
which is undefined, hence none. -/
def fb_get_panbuf (fb : fb_chardev_s) (overlay : Int) : Option circbuf_s :=
  (listGetI fb.paninfo (overlay + 1)).map (fun pi => pi.buf)

/-- State-passing companion of fb_get_panbuf: writing the ring buffer back
through the pointer the C code obtained.  Unreached when the slot does not
exist. -/
def fb_set_panbuf (fb : fb_chardev_s) (overlay : Int) (b : circbuf_s) : fb_chardev_s :=
  match listGetI fb.paninfo (overlay + 1) with
  | none => fb
  | some pi =>
      { fb with paninfo := listSetI fb.paninfo (overlay + 1) { pi with buf := b } }

/-- The scan of fb_get_free_pollfds, fb.c lines 160-166: index of the first
empty waiter slot, none when every slot is occupied. -/
def firstFree : List (Option pollfd) → Option Nat
  | [] => none
  | none :: _ => some 0
  | some _ :: rest => (firstFree rest).map (fun i => i + 1)

/-- fb_get_free_pollfds, fb.c lines 149-169: resolves the slot (undefined
when out of range, outer none) and returns the first free waiter entry
(inner none when all are occupied, which the caller turns into -EBUSY). -/
def fb_get_free_pollfds (fb : fb_chardev_s) (overlay : Int) : Option (Option Nat) :=
  (listGetI fb.paninfo (overlay + 1)).map (fun pi => firstFree pi.fds)

/-- fb_do_pollnotify, fb.c lines 1176-1195: signal POLLOUT to every
registered waiter of the slot; the result is the list of notified waiter
ids, in array order. -/
def fb_do_pollnotify (pi : fb_paninfo_s) : List Nat :=
  pi.fds.filterMap (fun f => f.map (fun fd => fd.id))

/-- fb_pollnotify, fb.c lines 1208-1235 (called with a device whose
back-reference is set): when the configured vsync offset is positive,
wd_start (re)arms the single per-device watchdog with that delay and the
address of slot overlay + 1, superseding any previous arming, and nothing is
notified yet; when it is zero, fb_do_pollnotify runs synchronously. -/
def fb_pollnotify (fb : fb_chardev_s) (overlay : Int) : fb_chardev_s × List Nat :=
  let id := overlay + 1
  if 0 < fb.vsyncoffset then
    ({ fb with wdog := some (fb.vsyncoffset, id.toNat) }, [])
  else
    (fb,
     match listGetI fb.paninfo id with
     | some pi => fb_do_pollnotify pi
     | none => [])

/-- Expiry of the per-device watchdog: the one-shot timer fires, running
fb_do_pollnotify on the pan-info slot whose address wd_start stored, and the
watchdog returns to the idle state. -/
def fb_wdog_expire (fb : fb_chardev_s) : fb_chardev_s × List Nat :=
  match fb.wdog with
  | none => (fb, [])
  | some (_, id) =>
      ({ fb with wdog := none },
       match fb.paninfo.get? id with
       | some pi => fb_do_pollnotify pi
       | none => [])

/-- fb_add_paninfo, fb.c lines 189-230, with P = sizeof(union fb_paninfo_u)
and info the P bytes of the record: fails -EINVAL when the vtable
back-reference is unset, writes the record into the resolved slot's ring
buffer inside a critical section, and returns -ENOSPC when the ring buffer
transferred nothing, OK otherwise. -/
def fb_add_paninfo (P : Nat) (vt : fb_vtable_s) (info : List Nat) (overlay : Int) :
    Option (Int × fb_vtable_s) :=
  match vt.priv with
  | none => some (-EINVAL, vt)
  | some fb =>
      match fb_get_panbuf fb overlay with
      | none => none
      | some panbuf =>
          let res := circbuf_write panbuf (info.take P)
          let fb2 := fb_set_panbuf fb overlay res.1
          some (if res.2 = 0 then -ENOSPC else 0, { vt with priv := some fb2 })

/-- fb_peek_paninfo, fb.c lines 1256-1290: non-destructively reads the oldest
record of the resolved slot; -EINVAL when the back-reference is unset,
-ENOSPC when nothing is queued, otherwise OK together with the P bytes read.
The device state is not modified (circbuf_peek does not consume). -/
def fb_peek_paninfo (P : Nat) (vt : fb_vtable_s) (overlay : Int) :
    Option (Int × List Nat) :=
  match vt.priv with
  | none => some (-EINVAL, [])
  | some fb =>
      match fb_get_panbuf fb overlay with
      | none => none
      | some panbuf =>
          let res := circbuf_peek panbuf P
          some (if res.2 = 0 then -ENOSPC else 0, res.1)

/-- fb_remove_paninfo, fb.c lines 1306-1342: skips one record of the
resolved slot and, exactly when a whole record was skipped, runs
fb_pollnotify for that surface; returns -EINVAL when the back-reference is
unset, -ENOSPC when nothing was skipped.  The third component is the list of
waiter ids notified synchronously. -/
def fb_remove_paninfo (P : Nat) (vt : fb_vtable_s) (overlay : Int) :
    Option (Int × fb_vtable_s × List Nat) :=
  match vt.priv with
  | none => some (-EINVAL, vt, [])
  | some fb =>
      match fb_get_panbuf fb overlay with
      | none => none
      | some panbuf =>
          let res := circbuf_skip panbuf P
          let fb2 := fb_set_panbuf fb overlay res.1
          let fn := if res.2 = P then fb_pollnotify fb2 overlay else (fb2, [])
          some (if res.2 = 0 then -ENOSPC else 0, { vt with priv := some fn.1 }, fn.2)

/-- fb_paninfo_count, fb.c lines 1358-1386: -EINVAL when the back-reference
is unset, otherwise used bytes divided by the record size. -/
def fb_paninfo_count (P : Nat) (vt : fb_vtable_s) (overlay : Int) : Option Int :=
  match vt.priv with
  | none => some (-EINVAL)
  | some fb =>
      match fb_get_panbuf fb overlay with
      | none => none
      | some panbuf => some ((circbuf_used panbuf / P : Nat) : Int)

/-- fb_poll, fb.c lines 1036-1086, for an open file whose selected overlay is
the given one.  Setup: find the first free waiter slot of the surface
(-EBUSY when none), store the caller's pollfd there, point its priv at the
slot, and signal POLLOUT immediately when the pan queue is not full.
Teardown: null exactly the slot recorded in priv.  Returns
(result, device state, caller's pollfd, notified ids). -/
def fb_poll (fb : fb_chardev_s) (fd : pollfd) (setup : Bool) (overlay : Int) :
    Option (Int × fb_chardev_s × pollfd × List Nat) :=
  if setup then
    match listGetI fb.paninfo (overlay + 1) with
    | none => none
    | some pi =>
        match firstFree pi.fds with
        | none => some (-EBUSY, fb, fd, [])
        | some i =>
            let id := (overlay + 1).toNat
            let fd2 := { fd with priv := some (id, i) }
            let pi2 := { pi with fds := pi.fds.set i (some fd2) }
            let fb2 := { fb with paninfo := fb.paninfo.set id pi2 }
            let notes := if circbuf_is_full pi.buf then [] else [fd2.id]
            some (0, fb2, fd2, notes)
  else
    match fd.priv with
    | none => some (0, fb, fd, [])
    | some si =>
        let fb2 :=
          match fb.paninfo.get? si.1 with
          | some pi =>
              { fb with paninfo := fb.paninfo.set si.1 { pi with fds := pi.fds.set si.2 none } }
          | none => fb
        some (0, fb2, { fd with priv := none }, [])

/-- FBIOPAN_DISPLAY branch of fb_ioctl, fb.c lines 820-837, with pinfo the
record bytes: the optional synchronous pan hook is invoked when present and
its return value is discarded; the result is that of enqueuing the record on
the primary surface. -/
def fb_ioctl_pan_display (P : Nat) (vt : fb_vtable_s) (pinfo : List Nat) :
    Option (Int × fb_vtable_s) :=
  match vt.pandisplay with
  | some _hookret => fb_add_paninfo P vt pinfo FB_NO_OVERLAY
  | none => fb_add_paninfo P vt pinfo FB_NO_OVERLAY

/-- FBIOPAN_OVERLAY branch of fb_ioctl, fb.c lines 761-778, with oinfo the
record bytes and overlay the oinfo->overlay field: the optional panoverlay
hook is invoked when present and its return value is discarded; the result
is that of enqueuing the record on the addressed overlay surface. -/
def fb_ioctl_pan_overlay (P : Nat) (vt : fb_vtable_s) (oinfo : List Nat) (overlay : Int) :
    Option (Int × fb_vtable_s) :=
  match vt.panoverlay with
  | some _hookret => fb_add_paninfo P vt oinfo overlay
  | none => fb_add_paninfo P vt oinfo overlay

/-- fb_open, fb.c lines 236-284, with the device lock acquisition succeeding:
allocOk models kmm_zalloc of the per-open-file state (false gives -ENOMEM),
hook the optional hardware open hook together with the value this call
returns.  The hook runs only when crefs is 0; on hook failure nothing is
counted.  Returns (result, device state, whether the open hook was
invoked). -/
def fb_open (fb : fb_chardev_s) (allocOk : Bool) (hook : Option Int) :
    Int × fb_chardev_s × Bool :=
  if allocOk = false then (-ENOMEM, fb, false)
  else if fb.crefs = 0 then
    match hook with
    | some r =>
        if r < 0 then (r, fb, true)
        else (0, { fb with crefs := wrap16 (fb.crefs + 1) }, true)
    | none => (0, { fb with crefs := wrap16 (fb.crefs + 1) }, false)
  else (0, { fb with crefs := wrap16 (fb.crefs + 1) }, false)

/-- fb_close, fb.c lines 290-326, with the device lock acquisition
succeeding: the hardware close hook runs only when crefs is 1; when the
accumulated result is non-negative the counter is decremented and the
per-open-file state freed.  Returns (result, device state, whether the close
hook was invoked, whether the per-open-file state was freed). -/
def fb_close (fb : fb_chardev_s) (hook : Option Int) :
    Int × fb_chardev_s × Bool × Bool :=
  let hr : Int × Bool :=
    if fb.crefs = 1 then
      match hook with
      | some r => (r, true)
      | none => ((0 : Int), false)
    else ((0 : Int), false)
  if 0 ≤ hr.1 then (hr.1, { fb with crefs := wrap16 (fb.crefs - 1) }, hr.2, true)
  else (hr.1, fb, hr.2, false)

/-- One pan-info slot as fb_register_device initializes it, fb.c lines
1464-1480: the ring buffer gets capacity fbcount * sizeof(union
fb_paninfo_u) and the waiter array starts empty (kmm_zalloc), with
N = CONFIG_VIDEO_FB_NPOLLWAITERS entries. -/
def mkPaninfo (P N : Nat) (pl : fb_panelinfo_s) : fb_paninfo_s :=
  ⟨circbuf_init (pl.fbcount * P), List.replicate N none⟩

/-- The slot-initialization loop of fb_register_device: slot i is built from
the panel info of surface i - 1 (the primary surface for slot 0).  The
hardware query fb_get_panelinfo is passed in as a function from the overlay
index to its snapshot, none meaning the query fails; any failure aborts
registration. -/
def initPaninfo (P N : Nat) (get : Int → Option fb_panelinfo_s) : Nat → Option (List fb_paninfo_s)
  | 0 => some []
  | n + 1 =>
      match initPaninfo P N get n, get ((n : Int) - 1) with
      | some l, some pl => some (l ++ [mkPaninfo P N pl])
      | _, _ => none

/-- fb_register_device, fb.c lines 1412-1517, reduced to the state it
constructs: noverlays + 1 pan-info slots, vsync offset 0, watchdog idle and
crefs 0 (kmm_zalloc); on success the vtable back-reference is bound to this
state.  Allocation failures and the device-node registration are not
modelled (any of them yields no registered device). -/
def fb_register_device (P N : Nat) (noverlays : Nat) (get : Int → Option fb_panelinfo_s) :
    Option fb_chardev_s :=
  (initPaninfo P N get (noverlays + 1)).map (fun slots => ⟨0, none, 0, slots⟩)

/-- fb_read, fb.c lines 332-383, after a successful fb_get_panelinfo of the
selected surface: returns (byte count, new file position, bytes read).  A
read at or past the end of the buffer returns 0; otherwise the transfer is
clamped to the end of the buffer and the position advances by the count. -/
def fb_read (panelinfo : fb_panelinfo_s) (f_pos : Nat) (len : Nat) :
    Int × Nat × List Nat :=
  let start := f_pos
  if panelinfo.fblen ≤ start then (0, f_pos, [])
  else
    let e := if panelinfo.fblen ≤ start + len then panelinfo.fblen else start + len
    let size := e - start
    ((size : Int), f_pos + size, (panelinfo.fbmem.drop start).take size)

/-- fb_write, fb.c lines 389-441, after a successful fb_get_panelinfo of the
selected surface, with buffer the bytes to write: returns (result, new file
position, new framebuffer contents).  A write starting at or past the end
fails -EFBIG; otherwise the transfer is silently truncated to the end of the
buffer, the truncated count is returned and the position advances by it. -/
def fb_write (panelinfo : fb_panelinfo_s) (f_pos : Nat) (buffer : List Nat) :
    Int × Nat × List Nat :=
  let start := f_pos
  let len := buffer.length
  if panelinfo.fblen ≤ start then (-EFBIG, f_pos, panelinfo.fbmem)
  else
    let e := if panelinfo.fblen ≤ start + len then panelinfo.fblen else start + len
    let size := e - start
    ((size : Int), f_pos + size,
     panelinfo.fbmem.take start ++ buffer.take size ++ panelinfo.fbmem.drop (start + size))

/-- A device freshly allocated by fb_register_device before any slot is
attached, used to trace the reference counter: crefs starts at 0. -/
def fb0 : fb_chardev_s := ⟨0, none, 0, []⟩

/-- The reference counter after n consecutive successful fb_open calls on a
fresh device (allocation succeeding, no hardware open hook). -/
def crefsAfterOpens : Nat → fb_chardev_s
  | 0 => fb0
  | n + 1 => (fb_open (crefsAfterOpens n) true none).2.1

/-- A concrete panel info snapshot reporting two virtual buffers, used to
exercise the registration path. -/
def plC1 : fb_panelinfo_s := ⟨[], 0, 2, 0⟩

/-- A concrete hardware panel-info query: only the primary surface exists
and it reports two virtual buffers. -/
def getC1 : Int → Option fb_panelinfo_s := fun o => if o = -1 then some plC1 else none

/-- The device getC1 registration builds: one slot, ring capacity 2 bytes
(record size 1), one empty waiter entry. -/
def fbC1 : fb_chardev_s := ⟨0, none, 0, [⟨⟨2, []⟩, [none]⟩]⟩

/-- A registered device with one pan-info slot whose queue (capacity 2,
record size 1) is empty and has no waiter entries. -/
def fbE : fb_chardev_s := ⟨0, none, 0, [⟨⟨2, []⟩, []⟩]⟩

/-- A vtable bound to fbE. -/
def vtE : fb_vtable_s := ⟨some fbE, none, none⟩

/-- The state of vtE after enqueuing the one-byte record 7. -/
def vtA : fb_vtable_s := ⟨some ⟨0, none, 0, [⟨⟨2, [7]⟩, []⟩]⟩, none, none⟩

/-- The state of vtE after enqueuing the one-byte record 9. -/
def vtB : fb_vtable_s := ⟨some ⟨0, none, 0, [⟨⟨2, [9]⟩, []⟩]⟩, none, none⟩

/-- A device with vsync offset 1 tick and two surfaces, each with one queued
record (record size 1) and one registered waiter: waiter id 1 on the primary
surface, waiter id 2 on overlay 0. -/
def fbC4 : fb_chardev_s :=
  ⟨1, none, 0,
   [⟨⟨1, [7]⟩, [some ⟨1, some (0, 0)⟩]⟩,
    ⟨⟨1, [8]⟩, [some ⟨2, some (1, 0)⟩]⟩]⟩

/-- A vtable bound to fbC4. -/
def vtC4 : fb_vtable_s := ⟨some fbC4, none, none⟩

/-- fbC4 after dequeuing the primary surface: its record is gone and the
per-device watchdog is armed for slot 0. -/
def fbC4a : fb_chardev_s :=
  ⟨1, some (1, 0), 0,
   [⟨⟨1, []⟩, [some ⟨1, some (0, 0)⟩]⟩,
    ⟨⟨1, [8]⟩, [some ⟨2, some (1, 0)⟩]⟩]⟩

/-- A vtable bound to fbC4a. -/
def vtC4a : fb_vtable_s := ⟨some fbC4a, none, none⟩

/-- fbC4a after dequeuing overlay 0: rearming the shared watchdog replaced
the pending slot-0 notification with slot 1. -/
def fbC4b : fb_chardev_s :=
  ⟨1, some (1, 1), 0,
   [⟨⟨1, []⟩, [some ⟨1, some (0, 0)⟩]⟩,
    ⟨⟨1, []⟩, [some ⟨2, some (1, 0)⟩]⟩]⟩

/-- A vtable bound to fbC4b. -/
def vtC4b : fb_vtable_s := ⟨some fbC4b, none, none⟩

/-- A device with one surface, one queued record out of two (queue not
full), waiter id 7 in entry 0 and a free waiter entry 1. -/
def fbC5 : fb_chardev_s :=
  ⟨0, none, 0, [⟨⟨2, [9]⟩, [some ⟨7, some (0, 0)⟩, none]⟩]⟩

/-- A device with one open reference, used for the close-path witness. -/
def fbC8 : fb_chardev_s := ⟨0, none, 1, []⟩

/-- A panel info snapshot of a 20-byte framebuffer. -/
def piC9 : fb_panelinfo_s := ⟨List.replicate 20 0, 20, 1, 8⟩

/-- A panel info snapshot of a 9-byte framebuffer with distinguishable
contents. -/
def piC10 : fb_panelinfo_s := ⟨[0, 1, 2, 3, 4, 5, 6, 7, 8], 9, 1, 8⟩

/-- Reading a valid index back: bounds carried by a successful listGetI. -/
theorem listGetI_bounds {α : Type} {l : List α} {i : Int} {a : α}
    (h : listGetI l i = some a) :
    0 ≤ i ∧ i.toNat < l.length ∧ l.get? i.toNat = some a := by
  unfold listGetI at h
  by_cases hi : i < 0
  · simp [hi] at h
  · refine ⟨by omega, ?_, by simpa [hi] using h⟩
    rw [if_neg hi] at h
    exact (List.get?_eq_some.mp h).1

/-- Updating a valid index and reading it back. -/
theorem listGetI_listSetI_self {α : Type} {l : List α} {i : Int} {a : α} (b : α)
    (h : listGetI l i = some a) :
    listGetI (listSetI l i b) i = some b := by
  obtain ⟨h0, hlen, _⟩ := listGetI_bounds h
  unfold listGetI listSetI
  rw [if_neg (by omega), if_neg (by omega)]
  simp [List.get?_eq_getElem?, List.getElem?_set_self', List.getElem?_eq_getElem,
        (by simpa using hlen : i.toNat < l.length)]

/-- Updating one index leaves every other index unchanged. -/
theorem listGetI_listSetI_ne {α : Type} (l : List α) (i j : Int) (b : α)
    (hne : j ≠ i) :
    listGetI (listSetI l i b) j = listGetI l j := by
  unfold listGetI listSetI
  by_cases hi : i < 0
  · simp [hi]
  · by_cases hj : j < 0
    · simp [hj]
    · rw [if_neg hi, if_neg hj, if_neg hj]
      have : j.toNat ≠ i.toNat := by omega
      simp [List.get?_eq_getElem?, List.getElem?_set_ne (by omega : i.toNat ≠ j.toNat)]

/-- fb_set_panbuf updates the addressed slot's ring buffer and nothing else
in that slot. -/
theorem fb_set_panbuf_get {fb : fb_chardev_s} {o : Int} {pi : fb_paninfo_s}
    (hpi : listGetI fb.paninfo (o + 1) = some pi) (b : circbuf_s) :
    listGetI (fb_set_panbuf fb o b).paninfo (o + 1) = some { pi with buf := b } := by
  unfold fb_set_panbuf
  rw [hpi]
  exact listGetI_listSetI_self _ hpi

/-- fb_set_panbuf does not touch the vsync offset, the watchdog or the
reference counter. -/
theorem fb_set_panbuf_fields (fb : fb_chardev_s) (o : Int) (b : circbuf_s) :
    (fb_set_panbuf fb o b).vsyncoffset = fb.vsyncoffset ∧
    (fb_set_panbuf fb o b).wdog = fb.wdog ∧
    (fb_set_panbuf fb o b).crefs = fb.crefs := by
  unfold fb_set_panbuf
  cases listGetI fb.paninfo (o + 1) <;> simp

/-- Unfolding fb_add_paninfo when the back-reference is set and the slot is
valid. -/
theorem fb_add_paninfo_eq (P : Nat) (fb : fb_chardev_s) (pd po : Option Int)
    (info : List Nat) (o : Int) {pi : fb_paninfo_s}
    (hpi : listGetI fb.paninfo (o + 1) = some pi) :
    fb_add_paninfo P ⟨some fb, pd, po⟩ info o =
      some (if (circbuf_write pi.buf (info.take P)).2 = 0 then -ENOSPC else 0,
            ⟨some (fb_set_panbuf fb o (circbuf_write pi.buf (info.take P)).1), pd, po⟩) := by
  simp [fb_add_paninfo, fb_get_panbuf, hpi]

/-- Unfolding fb_peek_paninfo when the back-reference is set and the slot is
valid. -/
theorem fb_peek_paninfo_eq (P : Nat) (fb : fb_chardev_s) (pd po : Option Int)
    (o : Int) {pi : fb_paninfo_s}
    (hpi : listGetI fb.paninfo (o + 1) = some pi) :
    fb_peek_paninfo P ⟨some fb, pd, po⟩ o =
      some (if (circbuf_peek pi.buf P).2 = 0 then -ENOSPC else 0,
            (circbuf_peek pi.buf P).1) := by
  simp [fb_peek_paninfo, fb_get_panbuf, hpi]

/-- Unfolding fb_remove_paninfo when the back-reference is set and the slot
is valid. -/
theorem fb_remove_paninfo_eq (P : Nat) (fb : fb_chardev_s) (pd po : Option Int)
    (o : Int) {pi : fb_paninfo_s}
    (hpi : listGetI fb.paninfo (o + 1) = some pi) :
    fb_remove_paninfo P ⟨some fb, pd, po⟩ o =
      some (if (circbuf_skip pi.buf P).2 = 0 then -ENOSPC else 0,
            ⟨some (if (circbuf_skip pi.buf P).2 = P then
                     (fb_pollnotify (fb_set_panbuf fb o (circbuf_skip pi.buf P).1) o).1
                   else fb_set_panbuf fb o (circbuf_skip pi.buf P).1), pd, po⟩,
            if (circbuf_skip pi.buf P).2 = P then
              (fb_pollnotify (fb_set_panbuf fb o (circbuf_skip pi.buf P).1) o).2
            else []) := by
  simp only [fb_remove_paninfo, fb_get_panbuf, hpi, Option.map_some']
  by_cases h : (circbuf_skip pi.buf P).2 = P <;> simp [h]

/-- Unfolding fb_paninfo_count when the back-reference is set and the slot
is valid. -/
theorem fb_paninfo_count_eq (P : Nat) (fb : fb_chardev_s) (pd po : Option Int)
    (o : Int) {pi : fb_paninfo_s}
    (hpi : listGetI fb.paninfo (o + 1) = some pi) :
    fb_paninfo_count P ⟨some fb, pd, po⟩ o =
      some ((circbuf_used pi.buf / P : Nat) : Int) := by
  simp [fb_paninfo_count, fb_get_panbuf, hpi]

/-- A successful initPaninfo builds exactly n slots. -/
theorem initPaninfo_length (P N : Nat) (get : Int → Option fb_panelinfo_s) :
    ∀ n l, initPaninfo P N get n = some l → l.length = n := by
  intro n
  induction n with
  | zero => intro l h; simp [initPaninfo] at h; simp [← h]
  | succ n ih =>
      intro l h
      unfold initPaninfo at h
      cases h1 : initPaninfo P N get n with
      | none => rw [h1] at h; simp at h
      | some l0 =>
          cases h2 : get ((n : Int) - 1) with
          | none => rw [h1, h2] at h; simp at h
          | some pl =>
              rw [h1, h2] at h
              simp at h
              rw [← h]
              simp [ih l0 h1]

/-- Slot i of a successful initPaninfo is built from the panel info of
surface i - 1. -/
theorem initPaninfo_get (P N : Nat) (get : Int → Option fb_panelinfo_s) :
    ∀ n l, initPaninfo P N get n = some l →
      ∀ i, i < n → ∃ pl, get ((i : Int) - 1) = some pl ∧
        l.get? i = some (mkPaninfo P N pl) := by
  intro n
  induction n with
  | zero => intro l _ i hi; omega
  | succ n ih =>
      intro l h i hi
      unfold initPaninfo at h
      cases h1 : initPaninfo P N get n with
      | none => rw [h1] at h; simp at h
      | some l0 =>
          cases h2 : get ((n : Int) - 1) with
          | none => rw [h1, h2] at h; simp at h
          | some pl =>
              rw [h1, h2] at h
              simp at h
              have hlen : l0.length = n := initPaninfo_length P N get n l0 h1
              by_cases hin : i < n
              · obtain ⟨pl2, hpl2, hget⟩ := ih l0 h1 i hin
                refine ⟨pl2, hpl2, ?_⟩
                rw [← h]
                simpa [List.get?_eq_getElem?, List.getElem?_append, hlen.symm ▸ hin] using hget
              · have hieq : i = n := by omega
                refine ⟨pl, by rw [hieq]; exact h2, ?_⟩
                rw [← h, hieq]
                simp [List.get?_eq_getElem?, List.getElem?_append, hlen]

/-- Enqueue of one whole record when the ring buffer has room: the record is
appended and the call reports success. -/
theorem fb_add_paninfo_enq (P : Nat) (hP : 0 < P) (fb : fb_chardev_s)
    (pd po : Option Int) (r : List Nat) (o : Int) {pi : fb_paninfo_s}
    (hpi : listGetI fb.paninfo (o + 1) = some pi) (hr : r.length = P)
    (hspace : P ≤ circbuf_space pi.buf) :
    fb_add_paninfo P ⟨some fb, pd, po⟩ r o =
      some (0, ⟨some (fb_set_panbuf fb o ⟨pi.buf.capacity, pi.buf.data ++ r⟩), pd, po⟩) := by
  rw [fb_add_paninfo_eq P fb pd po r o hpi]
  have htake : r.take P = r := by rw [← hr]; exact List.take_length r
  have hm : min (r.take P).length (circbuf_space pi.buf) = P := by
    rw [htake, hr]; exact Nat.min_eq_left hspace
  have hw : circbuf_write pi.buf (r.take P) =
      (⟨pi.buf.capacity, pi.buf.data ++ r⟩, P) := by
    show ((⟨pi.buf.capacity,
            pi.buf.data ++ (r.take P).take (min (r.take P).length (circbuf_space pi.buf))⟩ :
            circbuf_s),
          min (r.take P).length (circbuf_space pi.buf)) =
         ((⟨pi.buf.capacity, pi.buf.data ++ r⟩ : circbuf_s), P)
    rw [hm, htake, htake]
  rw [hw, if_neg hP.ne']

/-- Enqueue when the ring buffer has no space: nothing is transferred, the
queue is unchanged and the call reports -ENOSPC. -/
theorem fb_add_paninfo_full (P : Nat) (fb : fb_chardev_s)
    (pd po : Option Int) (r : List Nat) (o : Int) {pi : fb_paninfo_s}
    (hpi : listGetI fb.paninfo (o + 1) = some pi)
    (hfull : circbuf_space pi.buf = 0) :
    fb_add_paninfo P ⟨some fb, pd, po⟩ r o =
      some (-ENOSPC, ⟨some (fb_set_panbuf fb o pi.buf), pd, po⟩) := by
  rw [fb_add_paninfo_eq P fb pd po r o hpi]
  simp [circbuf_write, hfull]

/-- The pending count is the used byte count divided by the record size. -/
theorem fb_paninfo_count_val (P : Nat) (fb : fb_chardev_s) (pd po : Option Int)
    (o : Int) {pi : fb_paninfo_s}
    (hpi : listGetI fb.paninfo (o + 1) = some pi) :
    fb_paninfo_count P ⟨some fb, pd, po⟩ o =
      some ((pi.buf.data.length / P : Nat) : Int) :=
  fb_paninfo_count_eq P fb pd po o hpi

/-- Peek with at least one whole record queued returns the oldest record and
success. -/
theorem fb_peek_paninfo_nonempty (P : Nat) (hP : 0 < P) (fb : fb_chardev_s)
    (pd po : Option Int) (o : Int) {pi : fb_paninfo_s}
    (hpi : listGetI fb.paninfo (o + 1) = some pi)
    (hused : P ≤ pi.buf.data.length) :
    fb_peek_paninfo P ⟨some fb, pd, po⟩ o = some (0, pi.buf.data.take P) := by
  rw [fb_peek_paninfo_eq P fb pd po o hpi]
  have hn : min P (circbuf_used pi.buf) = P := by
    unfold circbuf_used; omega
  simp [circbuf_peek, hn, hP.ne']

/-- Peek on an empty queue transfers nothing and reports -ENOSPC. -/
theorem fb_peek_paninfo_empty (P : Nat) (fb : fb_chardev_s)
    (pd po : Option Int) (o : Int) {pi : fb_paninfo_s}
    (hpi : listGetI fb.paninfo (o + 1) = some pi)
    (hdata : pi.buf.data = []) :
    fb_peek_paninfo P ⟨some fb, pd, po⟩ o = some (-ENOSPC, []) := by
  rw [fb_peek_paninfo_eq P fb pd po o hpi]
  simp [circbuf_peek, circbuf_used, hdata]

/-- Dequeue with at least one whole record queued: exactly P bytes are
dropped, fb_pollnotify runs for the surface, and the call reports success. -/
theorem fb_remove_paninfo_nonempty (P : Nat) (hP : 0 < P) (fb : fb_chardev_s)
    (pd po : Option Int) (o : Int) {pi : fb_paninfo_s}
    (hpi : listGetI fb.paninfo (o + 1) = some pi)
    (hused : P ≤ pi.buf.data.length) :
    fb_remove_paninfo P ⟨some fb, pd, po⟩ o =
      some (0,
        ⟨some (fb_pollnotify (fb_set_panbuf fb o ⟨pi.buf.capacity, pi.buf.data.drop P⟩) o).1,
         pd, po⟩,
        (fb_pollnotify (fb_set_panbuf fb o ⟨pi.buf.capacity, pi.buf.data.drop P⟩) o).2) := by
  rw [fb_remove_paninfo_eq P fb pd po o hpi]
  have hn : min P (circbuf_used pi.buf) = P := by
    unfold circbuf_used; omega
  simp [circbuf_skip, hn, hP.ne']

/-- Dequeue on an empty queue: nothing is dropped, nobody is notified and
the call reports -ENOSPC. -/
theorem fb_remove_paninfo_empty (P : Nat) (hP : 0 < P) (fb : fb_chardev_s)
    (pd po : Option Int) (o : Int) {pi : fb_paninfo_s}
    (hpi : listGetI fb.paninfo (o + 1) = some pi)
    (hdata : pi.buf.data = []) :
    fb_remove_paninfo P ⟨some fb, pd, po⟩ o =
      some (-ENOSPC, ⟨some (fb_set_panbuf fb o pi.buf), pd, po⟩, []) := by
  rw [fb_remove_paninfo_eq P fb pd po o hpi]
  have h0 : min P (circbuf_used pi.buf) = 0 := by
    unfold circbuf_used; rw [hdata]; simp
  have hs : circbuf_skip pi.buf P = (pi.buf, 0) := by
    show ((⟨pi.buf.capacity, pi.buf.data.drop (min P (circbuf_used pi.buf))⟩ : circbuf_s),
          min P (circbuf_used pi.buf)) = (pi.buf, 0)
    rw [h0, List.drop_zero]
  rw [hs]
  have hne : ¬((pi.buf, (0 : Nat)).2 = P) := by simp; omega
  simp [hne]

/-- With a zero vsync offset, fb_pollnotify notifies the slot's registered
waiters synchronously and changes nothing. -/
theorem fb_pollnotify_sync {fb : fb_chardev_s} (o : Int) {pi : fb_paninfo_s}
    (h0 : fb.vsyncoffset = 0)
    (hpi : listGetI fb.paninfo (o + 1) = some pi) :
    fb_pollnotify fb o = (fb, fb_do_pollnotify pi) := by
  simp [fb_pollnotify, h0, hpi]

/-- With a positive vsync offset, fb_pollnotify only (re)arms the per-device
watchdog, notifying nobody yet. -/
theorem fb_pollnotify_deferred {fb : fb_chardev_s} (o : Int)
    (hpos : 0 < fb.vsyncoffset) :
    fb_pollnotify fb o =
      ({ fb with wdog := some (fb.vsyncoffset, (o + 1).toNat) }, []) := by
  simp [fb_pollnotify, hpos]

/-- The valid slot produced by fb_register_device for a valid surface:
registration stores the slot for surface o at index o + 1, built from that
surface's panel info. -/
theorem fb_register_device_slot (P N noverlays : Nat)
    (get : Int → Option fb_panelinfo_s) (fb : fb_chardev_s)
    (hreg : fb_register_device P N noverlays get = some fb)
    (o : Int) (ho1 : -1 ≤ o) (ho2 : o < (noverlays : Int))
    (pl : fb_panelinfo_s) (hpl : get o = some pl) :
    listGetI fb.paninfo (o + 1) = some (mkPaninfo P N pl) := by
  obtain ⟨slots, hinit, hfb⟩ := Option.map_eq_some'.mp hreg
  have hlen := initPaninfo_length P N get _ _ hinit
  have hi : (o + 1).toNat < noverlays + 1 := by omega
  obtain ⟨pl2, hpl2, hget⟩ := initPaninfo_get P N get _ _ hinit _ hi
  have hcast : (((o + 1).toNat : Int)) = o + 1 := Int.toNat_of_nonneg (by omega)
  rw [hcast, show o + 1 - 1 = o by ring, hpl] at hpl2
  have hpl2' : pl2 = pl := (Option.some_inj.mp hpl2.symm)
  subst hfb
  unfold listGetI
  rw [if_neg (by omega)]
  simpa [hpl2'] using hget

/-- C1: every pan-info slot built by fb_register_device has ring-buffer
capacity equal to the reported virtual-buffer count times the record size;
on a surface reporting buffer_count 2 whose queue starts empty, the first
two enqueues succeed, the third fails with -ENOSPC (QueueFull), and after
exactly k of the enqueues, k at most 2, fb_paninfo_count returns k, a
non-negative value. -/
theorem C1_capacity_and_queuefull
    (P N noverlays : Nat) (hP : 0 < P)
    (get : Int → Option fb_panelinfo_s) (fb : fb_chardev_s)
    (hreg : fb_register_device P N noverlays get = some fb)
    (o : Int) (ho1 : -1 ≤ o) (ho2 : o < (noverlays : Int))
    (pl : fb_panelinfo_s) (hpl : get o = some pl) (hc : pl.fbcount = 2)
    (r1 r2 r3 : List Nat) (h1 : r1.length = P) (h2 : r2.length = P)
    (h3 : r3.length = P) :
    (∀ i pi, fb.paninfo.get? i = some pi →
       ∃ pl2, get ((i : Int) - 1) = some pl2 ∧
         pi.buf = circbuf_init (pl2.fbcount * P)) ∧
    fb_get_panbuf fb o = some (circbuf_init (2 * P)) ∧
    fb_paninfo_count P ⟨some fb, none, none⟩ o = some 0 ∧
    ∃ vt1 vt2 : fb_vtable_s,
      fb_add_paninfo P ⟨some fb, none, none⟩ r1 o = some (0, vt1) ∧
      fb_paninfo_count P vt1 o = some 1 ∧
      fb_add_paninfo P vt1 r2 o = some (0, vt2) ∧
      fb_paninfo_count P vt2 o = some 2 ∧
      ∃ vt3, fb_add_paninfo P vt2 r3 o = some (-ENOSPC, vt3) := by
  have hslot := fb_register_device_slot P N noverlays get fb hreg o ho1 ho2 pl hpl
  have hslot0 : listGetI fb.paninfo (o + 1) =
      some ⟨⟨2 * P, []⟩, List.replicate N none⟩ := by
    rw [hslot]; simp [mkPaninfo, circbuf_init, hc]
  refine ⟨?_, ?_, ?_, ?_⟩
  · intro i pi hget
    obtain ⟨slots, hinit, hfb⟩ := Option.map_eq_some'.mp hreg
    subst hfb
    have hget' : slots.get? i = some pi := hget
    have hi : i < slots.length := (List.get?_eq_some.mp hget').1
    have hlen := initPaninfo_length P N get _ _ hinit
    obtain ⟨pl2, hpl2, hg⟩ := initPaninfo_get P N get _ _ hinit i (by omega)
    refine ⟨pl2, hpl2, ?_⟩
    rw [hget'] at hg
    have : pi = mkPaninfo P N pl2 := Option.some_inj.mp hg
    rw [this, mkPaninfo]
  · simp [fb_get_panbuf, hslot0, circbuf_init]
  · rw [fb_paninfo_count_val P fb none none o hslot0]
    simp
  · have e1 : fb_add_paninfo P ⟨some fb, none, none⟩ r1 o =
        some (0, ⟨some (fb_set_panbuf fb o ⟨2 * P, r1⟩), none, none⟩) :=
      fb_add_paninfo_enq P hP fb none none r1 o hslot0 h1
        (by simp [circbuf_space]; omega)
    have hslot1 : listGetI (fb_set_panbuf fb o ⟨2 * P, r1⟩).paninfo (o + 1) =
        some ⟨⟨2 * P, r1⟩, List.replicate N none⟩ :=
      fb_set_panbuf_get hslot0 _
    have c1 : fb_paninfo_count P ⟨some (fb_set_panbuf fb o ⟨2 * P, r1⟩), none, none⟩ o =
        some 1 := by
      rw [fb_paninfo_count_val P _ none none o hslot1]
      simp [h1, Nat.div_self hP]
    have e2 : fb_add_paninfo P ⟨some (fb_set_panbuf fb o ⟨2 * P, r1⟩), none, none⟩ r2 o =
        some (0, ⟨some (fb_set_panbuf (fb_set_panbuf fb o ⟨2 * P, r1⟩) o ⟨2 * P, r1 ++ r2⟩),
                  none, none⟩) :=
      fb_add_paninfo_enq P hP _ none none r2 o hslot1 h2
        (by simp [circbuf_space, h1]; omega)
    have hslot2 : listGetI
        (fb_set_panbuf (fb_set_panbuf fb o ⟨2 * P, r1⟩) o ⟨2 * P, r1 ++ r2⟩).paninfo
        (o + 1) = some ⟨⟨2 * P, r1 ++ r2⟩, List.replicate N none⟩ :=
      fb_set_panbuf_get hslot1 _
    have c2 : fb_paninfo_count P
        ⟨some (fb_set_panbuf (fb_set_panbuf fb o ⟨2 * P, r1⟩) o ⟨2 * P, r1 ++ r2⟩),
         none, none⟩ o = some 2 := by
      rw [fb_paninfo_count_val P _ none none o hslot2]
      have hdiv : (r1 ++ r2).length / P = 2 := by
        rw [List.length_append, h1, h2, ← two_mul]
        exact Nat.mul_div_cancel 2 hP
      show some ((((r1 ++ r2).length / P : Nat)) : Int) = some 2
      rw [hdiv]
      rfl
    have e3 := fb_add_paninfo_full P
      (fb_set_panbuf (fb_set_panbuf fb o ⟨2 * P, r1⟩) o ⟨2 * P, r1 ++ r2⟩)
      none none r3 o hslot2
      (by simp [circbuf_space, h1, h2]; omega)
    exact ⟨_, _, e1, c1, e2, c2, _, e3⟩

/-- C1 witness: the theorem instantiated at a concrete registered device
with one surface, record size 1 and reported buffer count 2. -/
theorem C1_witness :
    (0 < 1 ∧ fb_register_device 1 1 0 getC1 = some fbC1 ∧
     (-1 : Int) ≤ -1 ∧ (-1 : Int) < ((0 : Nat) : Int) ∧
     getC1 (-1) = some plC1 ∧ plC1.fbcount = 2 ∧
     ([3] : List Nat).length = 1 ∧ ([4] : List Nat).length = 1 ∧
     ([5] : List Nat).length = 1) ∧
    ((∀ i pi, fbC1.paninfo.get? i = some pi →
       ∃ pl2, getC1 ((i : Int) - 1) = some pl2 ∧
         pi.buf = circbuf_init (pl2.fbcount * 1)) ∧
     fb_get_panbuf fbC1 (-1) = some (circbuf_init (2 * 1)) ∧
     fb_paninfo_count 1 ⟨some fbC1, none, none⟩ (-1) = some 0 ∧
     ∃ vt1 vt2 : fb_vtable_s,
       fb_add_paninfo 1 ⟨some fbC1, none, none⟩ [3] (-1) = some (0, vt1) ∧
       fb_paninfo_count 1 vt1 (-1) = some 1 ∧
       fb_add_paninfo 1 vt1 [4] (-1) = some (0, vt2) ∧
       fb_paninfo_count 1 vt2 (-1) = some 2 ∧
       ∃ vt3, fb_add_paninfo 1 vt2 [5] (-1) = some (-ENOSPC, vt3)) :=
  ⟨⟨by decide, by decide, by decide, by decide, by decide, by decide,
    by decide, by decide, by decide⟩,
   C1_capacity_and_queuefull 1 1 0 (by decide) getC1 fbC1 (by decide)
     (-1) (by decide) (by decide) plC1 (by decide) (by decide)
     [3] [4] [5] (by decide) (by decide) (by decide)⟩

/-- fb_pollnotify never changes the pan-info array: it only notifies or arms
the watchdog. -/
theorem fb_pollnotify_paninfo (fb : fb_chardev_s) (o : Int) :
    (fb_pollnotify fb o).1.paninfo = fb.paninfo := by
  unfold fb_pollnotify
  by_cases h : 0 < fb.vsyncoffset <;> simp [h]

/-- C2 counterexample: the claim says dequeue returns the dequeued record.
fb_remove_paninfo has no output parameter for the record: starting from the
same empty queue, enqueuing the record 7 or the record 9 and then dequeuing
produces literally identical dequeue results (return code 0, same state,
same notifications) although the records differ, so the dequeue return
carries no record; only peek retrieves the value. -/
theorem C2_counterexample :
    fb_add_paninfo 1 vtE [7] (-1) = some (0, vtA) ∧
    fb_add_paninfo 1 vtE [9] (-1) = some (0, vtB) ∧
    fb_remove_paninfo 1 vtA (-1) = some (0, vtE, []) ∧
    fb_remove_paninfo 1 vtB (-1) = some (0, vtE, []) ∧
    ([7] : List Nat) ≠ [9] := by decide

/-- C2 (amended): starting from an empty queue of capacity at least one
record, enqueue of r then peek returns a record equal to r without touching
the queue state; enqueue of r then dequeue removes exactly one payload-sized
unit, leaving the queue empty again, and returns success (the record value
is not returned by dequeue); peek and dequeue on the empty queue fail with
the queue-empty error -ENOSPC. -/
theorem C2_roundtrip
    (P : Nat) (hP : 0 < P) (fb : fb_chardev_s) (pd po : Option Int)
    (o : Int) (cap : Nat) {pi : fb_paninfo_s}
    (hpi : listGetI fb.paninfo (o + 1) = some pi)
    (hemp : pi.buf = ⟨cap, []⟩) (hcap : P ≤ cap)
    (r : List Nat) (hr : r.length = P) :
    fb_peek_paninfo P ⟨some fb, pd, po⟩ o = some (-ENOSPC, []) ∧
    (∃ vtx, fb_remove_paninfo P ⟨some fb, pd, po⟩ o = some (-ENOSPC, vtx, [])) ∧
    ∃ fb1, fb_add_paninfo P ⟨some fb, pd, po⟩ r o = some (0, ⟨some fb1, pd, po⟩) ∧
      fb_get_panbuf fb1 o = some ⟨cap, r⟩ ∧
      fb_peek_paninfo P ⟨some fb1, pd, po⟩ o = some (0, r) ∧
      ∃ fb2 notes,
        fb_remove_paninfo P ⟨some fb1, pd, po⟩ o = some (0, ⟨some fb2, pd, po⟩, notes) ∧
        fb_get_panbuf fb2 o = some ⟨cap, []⟩ := by
  have hdata : pi.buf.data = [] := by rw [hemp]
  refine ⟨fb_peek_paninfo_empty P fb pd po o hpi hdata,
          ⟨_, fb_remove_paninfo_empty P hP fb pd po o hpi hdata⟩, ?_⟩
  have hspace : P ≤ circbuf_space pi.buf := by
    rw [hemp]; simp [circbuf_space]; omega
  have e1 : fb_add_paninfo P ⟨some fb, pd, po⟩ r o =
      some (0, ⟨some (fb_set_panbuf fb o ⟨cap, r⟩), pd, po⟩) := by
    have e := fb_add_paninfo_enq P hP fb pd po r o hpi hr hspace
    rw [hemp] at e
    simpa using e
  have hslot1 : listGetI (fb_set_panbuf fb o ⟨cap, r⟩).paninfo (o + 1) =
      some ⟨⟨cap, r⟩, pi.fds⟩ := fb_set_panbuf_get hpi _
  refine ⟨fb_set_panbuf fb o ⟨cap, r⟩, e1, ?_, ?_, ?_⟩
  · simp [fb_get_panbuf, hslot1]
  · have e := fb_peek_paninfo_nonempty P hP _ pd po o hslot1 (by simp; omega)
    simpa [← hr] using e
  · have hused : P ≤ ((⟨⟨cap, r⟩, pi.fds⟩ : fb_paninfo_s)).buf.data.length := by
      simp; omega
    have e := fb_remove_paninfo_nonempty P hP _ pd po o hslot1 hused
    have hdrop : r.drop P = [] := by rw [← hr]; exact List.drop_length r
    rw [show ((⟨⟨cap, r⟩, pi.fds⟩ : fb_paninfo_s)).buf.data.drop P = r.drop P from rfl,
        hdrop] at e
    refine ⟨_, _, e, ?_⟩
    have hslot2 : listGetI
        (fb_set_panbuf (fb_set_panbuf fb o ⟨cap, r⟩) o ⟨cap, []⟩).paninfo (o + 1) =
        some ⟨⟨cap, []⟩, pi.fds⟩ := fb_set_panbuf_get hslot1 _
    unfold fb_get_panbuf
    rw [fb_pollnotify_paninfo, hslot2]
    rfl

/-- C2 witness: the amended theorem instantiated at a concrete device with
one surface, record size 1, queue capacity 2. -/
theorem C2_witness :
    (0 < 1 ∧ listGetI fbE.paninfo (-1 + 1) = some (⟨⟨2, []⟩, []⟩ : fb_paninfo_s) ∧
     ((⟨⟨2, []⟩, []⟩ : fb_paninfo_s)).buf = ⟨2, []⟩ ∧ 1 ≤ 2 ∧
     ([7] : List Nat).length = 1) ∧
    (fb_peek_paninfo 1 ⟨some fbE, none, none⟩ (-1) = some (-ENOSPC, []) ∧
     (∃ vtx, fb_remove_paninfo 1 ⟨some fbE, none, none⟩ (-1) = some (-ENOSPC, vtx, [])) ∧
     ∃ fb1, fb_add_paninfo 1 ⟨some fbE, none, none⟩ [7] (-1) = some (0, ⟨some fb1, none, none⟩) ∧
       fb_get_panbuf fb1 (-1) = some ⟨2, [7]⟩ ∧
       fb_peek_paninfo 1 ⟨some fb1, none, none⟩ (-1) = some (0, [7]) ∧
       ∃ fb2 notes,
         fb_remove_paninfo 1 ⟨some fb1, none, none⟩ (-1) = some (0, ⟨some fb2, none, none⟩, notes) ∧
         fb_get_panbuf fb2 (-1) = some ⟨2, []⟩) :=
  ⟨⟨by decide, by decide, by decide, by decide, by decide⟩,
   @C2_roundtrip 1 (by decide) fbE none none (-1) 2 ⟨⟨2, []⟩, []⟩ (by decide)
     (by decide) (by decide) [7] (by decide)⟩

/-- C3 counterexample: the claim says a queue operation on an out-of-range
surface identifier fails with InvalidArgument (-EINVAL).  On the device vtE,
which has one pan-info slot (overlay_count 0, valid identifiers only -1),
every queue operation applied to identifier 1 or -2 reaches the
DEBUGASSERTed out-of-bounds index in fb_get_panbuf, whose production
behaviour is an out-of-bounds access with no defined result (none in the
model) rather than the defined -EINVAL result the claim requires;
fb_add_paninfo returns -EINVAL only for an unset vtable back-reference. -/
theorem C3_counterexample :
    fb_add_paninfo 1 vtE [5] 1 = none ∧
    fb_peek_paninfo 1 vtE 1 = none ∧
    fb_remove_paninfo 1 vtE 1 = none ∧
    fb_paninfo_count 1 vtE 1 = none ∧
    fb_add_paninfo 1 vtE [5] (-2) = none := by decide

/-- C3 (amended): for identifiers in the configured range (slot index
overlay + 1 within the pan-info array) resolution is the bijection
overlay to slot overlay + 1; an identifier outside the range makes every
queue operation hit a debug assertion / out-of-bounds access with no
defined result, not an InvalidArgument error; the queue operations return
-EINVAL exactly when the vtable's device back-reference is unset. -/
theorem C3_slot_resolution
    (P : Nat) (fb : fb_chardev_s) (o : Int) (r : List Nat) (pd po : Option Int) :
    (0 ≤ o + 1 → (o + 1).toNat < fb.paninfo.length →
       ∃ pi, fb.paninfo.get? (o + 1).toNat = some pi ∧
         fb_get_panbuf fb o = some pi.buf) ∧
    ((o + 1 < 0 ∨ (fb.paninfo.length : Int) ≤ o + 1) →
       fb_get_panbuf fb o = none ∧
       fb_add_paninfo P ⟨some fb, pd, po⟩ r o = none ∧
       fb_peek_paninfo P ⟨some fb, pd, po⟩ o = none ∧
       fb_remove_paninfo P ⟨some fb, pd, po⟩ o = none ∧
       fb_paninfo_count P ⟨some fb, pd, po⟩ o = none) ∧
    (fb_add_paninfo P ⟨none, pd, po⟩ r o = some (-EINVAL, ⟨none, pd, po⟩) ∧
     fb_peek_paninfo P ⟨none, pd, po⟩ o = some (-EINVAL, []) ∧
     fb_remove_paninfo P ⟨none, pd, po⟩ o = some (-EINVAL, ⟨none, pd, po⟩, []) ∧
     fb_paninfo_count P ⟨none, pd, po⟩ o = some (-EINVAL)) := by
  refine ⟨?_, ?_, ?_⟩
  · intro h0 hlt
    cases hq : fb.paninfo.get? (o + 1).toNat with
    | none =>
        exact absurd (List.get?_eq_none.mp hq) (by omega)
    | some pi =>
        refine ⟨pi, rfl, ?_⟩
        simp only [fb_get_panbuf, listGetI, if_neg (not_lt.mpr h0), hq, Option.map_some']
  · intro h
    have hnone : listGetI fb.paninfo (o + 1) = none := by
      unfold listGetI
      rcases h with h | h
      · rw [if_pos h]
      · rw [if_neg (by omega)]
        exact List.get?_eq_none.mpr (by omega)
    have hpan : fb_get_panbuf fb o = none := by simp [fb_get_panbuf, hnone]
    exact ⟨hpan, by simp [fb_add_paninfo, hpan], by simp [fb_peek_paninfo, hpan],
           by simp [fb_remove_paninfo, hpan], by simp [fb_paninfo_count, hpan]⟩
  · exact ⟨rfl, rfl, rfl, rfl⟩

/-- C3 witness: the amended theorem instantiated at a concrete device with
one slot and the in-range identifier -1. -/
theorem C3_witness :
    ((0 ≤ (-1 : Int) + 1 → ((-1 : Int) + 1).toNat < fbE.paninfo.length →
       ∃ pi, fbE.paninfo.get? ((-1 : Int) + 1).toNat = some pi ∧
         fb_get_panbuf fbE (-1) = some pi.buf) ∧
     (((-1 : Int) + 1 < 0 ∨ (fbE.paninfo.length : Int) ≤ (-1 : Int) + 1) →
       fb_get_panbuf fbE (-1) = none ∧
       fb_add_paninfo 1 ⟨some fbE, none, none⟩ [5] (-1) = none ∧
       fb_peek_paninfo 1 ⟨some fbE, none, none⟩ (-1) = none ∧
       fb_remove_paninfo 1 ⟨some fbE, none, none⟩ (-1) = none ∧
       fb_paninfo_count 1 ⟨some fbE, none, none⟩ (-1) = none) ∧
     (fb_add_paninfo 1 ⟨none, none, none⟩ [5] (-1) = some (-EINVAL, ⟨none, none, none⟩) ∧
      fb_peek_paninfo 1 ⟨none, none, none⟩ (-1) = some (-EINVAL, []) ∧
      fb_remove_paninfo 1 ⟨none, none, none⟩ (-1) = some (-EINVAL, ⟨none, none, none⟩, []) ∧
      fb_paninfo_count 1 ⟨none, none, none⟩ (-1) = some (-EINVAL))) :=
  C3_slot_resolution 1 fbE (-1) [5] none none

/-- Every waiter registered in a slot is in that slot's notification list. -/
theorem fb_do_pollnotify_mem (pi : fb_paninfo_s) (fd : pollfd)
    (h : some fd ∈ pi.fds) : fd.id ∈ fb_do_pollnotify pi := by
  unfold fb_do_pollnotify
  exact List.mem_filterMap.mpr ⟨some fd, h, rfl⟩

/-- C4 counterexample: the claim says the deferred wake is performed by a
per-surface one-shot callback, so every poll waiter of a surface with a
successful dequeue is eventually woken.  The timer is in fact per device:
on vtC4 (vsync offset 1 tick, waiter id 1 on the primary surface, waiter
id 2 on overlay 0, one record queued on each) a successful dequeue on the
primary surface arms the watchdog for slot 0, a successful dequeue on
overlay 0 re-arms the same watchdog for slot 1, and its expiry notifies
only waiter 2: waiter 1 is woken by no step of the run (the notification
outputs are [], [] and [2]), although its surface's dequeue succeeded and
it stayed registered throughout. -/
theorem C4_counterexample :
    fb_remove_paninfo 1 vtC4 (-1) = some (0, vtC4a, []) ∧
    fb_remove_paninfo 1 vtC4a 0 = some (0, vtC4b, []) ∧
    fb_wdog_expire fbC4b =
      (⟨1, none, 0,
        [⟨⟨1, []⟩, [some ⟨1, some (0, 0)⟩]⟩,
         ⟨⟨1, []⟩, [some ⟨2, some (1, 0)⟩]⟩]⟩, [2]) ∧
    (1 : Nat) ∉ ([2] : List Nat) := by decide

/-- C4 (amended): on a successful dequeue with a zero vsync offset, every
still-registered waiter of that surface is woken synchronously with the
notification computed after the dequeue completed; with a positive vsync
offset nothing is notified yet and the single per-device one-shot watchdog
is (re)armed for that delay with the dequeued surface as target — re-arming
replaces both the deadline and the target surface, so duplicate
notifications never stack, but a pending deferred notification for another
surface of the same device is superseded; when the armed watchdog expires
it notifies every waiter registered in the slot it was last armed for and
returns to idle. -/
theorem C4_notification_scheduler
    (P : Nat) (hP : 0 < P) (fb : fb_chardev_s) (pd po : Option Int) (o : Int)
    {pi : fb_paninfo_s} (hpi : listGetI fb.paninfo (o + 1) = some pi)
    (hused : P ≤ pi.buf.data.length) :
    (fb.vsyncoffset = 0 →
       ∃ fb2 notes, fb_remove_paninfo P ⟨some fb, pd, po⟩ o =
           some (0, ⟨some fb2, pd, po⟩, notes) ∧
         fb2.wdog = fb.wdog ∧
         (∀ fd, some fd ∈ pi.fds → fd.id ∈ notes)) ∧
    (0 < fb.vsyncoffset →
       ∃ fb2, fb_remove_paninfo P ⟨some fb, pd, po⟩ o =
           some (0, ⟨some fb2, pd, po⟩, []) ∧
         fb2.wdog = some (fb.vsyncoffset, (o + 1).toNat)) ∧
    (∀ fb3 d id pi3, fb3.wdog = some (d, id) → fb3.paninfo.get? id = some pi3 →
       fb_wdog_expire fb3 = ({ fb3 with wdog := none }, fb_do_pollnotify pi3) ∧
       ∀ fd, some fd ∈ pi3.fds → fd.id ∈ fb_do_pollnotify pi3) := by
  have e := fb_remove_paninfo_nonempty P hP fb pd po o hpi hused
  have hfields := fb_set_panbuf_fields fb o ⟨pi.buf.capacity, pi.buf.data.drop P⟩
  have hslot' := fb_set_panbuf_get hpi (⟨pi.buf.capacity, pi.buf.data.drop P⟩ : circbuf_s)
  refine ⟨?_, ?_, ?_⟩
  · intro h0
    have hsync := fb_pollnotify_sync o
      (by rw [hfields.1, h0]) hslot'
    rw [hsync] at e
    exact ⟨_, _, e, by rw [hfields.2.1], fun fd hfd => fb_do_pollnotify_mem _ fd hfd⟩
  · intro hpos
    have hdef := @fb_pollnotify_deferred
      (fb_set_panbuf fb o ⟨pi.buf.capacity, pi.buf.data.drop P⟩) o
      (by rw [hfields.1]; exact hpos)
    rw [hdef] at e
    exact ⟨_, e, by simp [hfields.1]⟩
  · intro fb3 d id pi3 hw hget
    constructor
    · have hget' : fb3.paninfo[id]? = some pi3 := by
        simpa [List.get?_eq_getElem?] using hget
      simp [fb_wdog_expire, hw, hget']
    · exact fun fd hfd => fb_do_pollnotify_mem _ fd hfd

/-- C4 witness: the amended theorem instantiated at the concrete device
fbC4 (vsync offset 1 tick), dequeuing the primary surface. -/
theorem C4_witness :
    (0 < 1 ∧
     listGetI fbC4.paninfo (-1 + 1) =
       some (⟨⟨1, [7]⟩, [some ⟨1, some (0, 0)⟩]⟩ : fb_paninfo_s) ∧
     1 ≤ ((⟨⟨1, [7]⟩, [some ⟨1, some (0, 0)⟩]⟩ : fb_paninfo_s)).buf.data.length) ∧
    ((fbC4.vsyncoffset = 0 →
       ∃ fb2 notes, fb_remove_paninfo 1 ⟨some fbC4, none, none⟩ (-1) =
           some (0, ⟨some fb2, none, none⟩, notes) ∧
         fb2.wdog = fbC4.wdog ∧
         (∀ fd, some fd ∈ (⟨⟨1, [7]⟩, [some ⟨1, some (0, 0)⟩]⟩ : fb_paninfo_s).fds →
            fd.id ∈ notes)) ∧
     (0 < fbC4.vsyncoffset →
       ∃ fb2, fb_remove_paninfo 1 ⟨some fbC4, none, none⟩ (-1) =
           some (0, ⟨some fb2, none, none⟩, []) ∧
         fb2.wdog = some (fbC4.vsyncoffset, ((-1 : Int) + 1).toNat)) ∧
     (∀ fb3 d id pi3, fb3.wdog = some (d, id) → fb3.paninfo.get? id = some pi3 →
       fb_wdog_expire fb3 = ({ fb3 with wdog := none }, fb_do_pollnotify pi3) ∧
       ∀ fd, some fd ∈ pi3.fds → fd.id ∈ fb_do_pollnotify pi3)) :=
  ⟨⟨by decide, by decide, by decide⟩,
   @C4_notification_scheduler 1 (by decide) fbC4 none none (-1)
     ⟨⟨1, [7]⟩, [some ⟨1, some (0, 0)⟩]⟩ (by decide) (by decide)⟩

/-- The waiter-slot scan returns none exactly when every slot is occupied. -/
theorem firstFree_none_iff (l : List (Option pollfd)) :
    firstFree l = none ↔ ∀ s ∈ l, s.isSome := by
  induction l with
  | nil => simp [firstFree]
  | cons hd tl ih =>
      cases hd with
      | none => simp [firstFree]
      | some fd => simp [firstFree, ih]

/-- The waiter-slot scan returns the index of the first empty slot. -/
theorem firstFree_spec (l : List (Option pollfd)) :
    ∀ i, firstFree l = some i →
      l.get? i = some none ∧ ∀ j, j < i → l.get? j ≠ some none := by
  induction l with
  | nil => intro i h; simp [firstFree] at h
  | cons hd tl ih =>
      intro i h
      cases hd with
      | none =>
          simp [firstFree] at h
          subst h
          exact ⟨rfl, by omega⟩
      | some fd =>
          unfold firstFree at h
          obtain ⟨i0, h0, hi⟩ := Option.map_eq_some'.mp h
          subst hi
          obtain ⟨ha, hb⟩ := ih i0 h0
          refine ⟨ha, ?_⟩
          intro j hj
          cases j with
          | zero => simp
          | succ j0 => exact hb j0 (by omega)

/-- C5: poll setup registers the caller's waiter handle in the first empty
slot of the surface's waiter array and signals writable immediately exactly
when the ring buffer is not full; with every slot occupied setup fails
-EBUSY and changes nothing; teardown nulls exactly the slot recorded in the
caller's handle. -/
theorem C5_poll_setup_teardown
    (fb : fb_chardev_s) (o : Int) {pi : fb_paninfo_s}
    (hpi : listGetI fb.paninfo (o + 1) = some pi) (fd : pollfd) :
    (∀ i, firstFree pi.fds = some i →
       pi.fds.get? i = some none ∧ (∀ j, j < i → pi.fds.get? j ≠ some none) ∧
       fb_poll fb fd true o =
         some (0,
           { fb with paninfo :=
               (fb.paninfo.set (o + 1).toNat
                 ({ pi with fds :=
                     (pi.fds.set i (some { fd with priv := some ((o + 1).toNat, i) })) })) },
           { fd with priv := some ((o + 1).toNat, i) },
           if circbuf_is_full pi.buf then [] else [fd.id])) ∧
    (firstFree pi.fds = none →
       (∀ s ∈ pi.fds, s.isSome) ∧
       fb_poll fb fd true o = some (-EBUSY, fb, fd, [])) ∧
    ((∀ s ∈ pi.fds, s.isSome) → firstFree pi.fds = none) ∧
    (∀ sid i, fd.priv = some (sid, i) → ∀ pi2, fb.paninfo.get? sid = some pi2 →
       fb_poll fb fd false o =
         some (0,
           { fb with paninfo :=
               (fb.paninfo.set sid ({ pi2 with fds := pi2.fds.set i none })) },
           { fd with priv := none }, []) ∧
       (∀ j, j ≠ i → (pi2.fds.set i none).get? j = pi2.fds.get? j)) := by
  refine ⟨?_, ?_, fun h => (firstFree_none_iff pi.fds).mpr h, ?_⟩
  · intro i hi
    obtain ⟨ha, hb⟩ := firstFree_spec pi.fds i hi
    exact ⟨ha, hb, by simp [fb_poll, hpi, hi]⟩
  · intro h
    exact ⟨(firstFree_none_iff pi.fds).mp h, by simp [fb_poll, hpi, h]⟩
  · intro sid i hfd pi2 hget
    have hget' : fb.paninfo[sid]? = some pi2 := by
      simpa [List.get?_eq_getElem?] using hget
    refine ⟨by simp [fb_poll, hfd, hget'], ?_⟩
    intro j hj
    simp [List.get?_eq_getElem?, List.getElem?_set_ne (fun he => hj he.symm)]

/-- C5 witness: the theorem instantiated at a concrete device whose surface
has waiter entry 0 occupied, entry 1 free and a non-full queue. -/
theorem C5_witness :
    (listGetI fbC5.paninfo (-1 + 1) =
       some (⟨⟨2, [9]⟩, [some ⟨7, some (0, 0)⟩, none]⟩ : fb_paninfo_s)) ∧
    ((∀ i, firstFree (⟨⟨2, [9]⟩, [some ⟨7, some (0, 0)⟩, none]⟩ : fb_paninfo_s).fds = some i →
       (⟨⟨2, [9]⟩, [some ⟨7, some (0, 0)⟩, none]⟩ : fb_paninfo_s).fds.get? i = some none ∧
       (∀ j, j < i →
          (⟨⟨2, [9]⟩, [some ⟨7, some (0, 0)⟩, none]⟩ : fb_paninfo_s).fds.get? j ≠ some none) ∧
       fb_poll fbC5 ⟨5, none⟩ true (-1) =
         some (0,
           { fbC5 with paninfo :=
               (fbC5.paninfo.set ((-1 : Int) + 1).toNat
                 ({ (⟨⟨2, [9]⟩, [some ⟨7, some (0, 0)⟩, none]⟩ : fb_paninfo_s) with fds :=
                     ((⟨⟨2, [9]⟩, [some ⟨7, some (0, 0)⟩, none]⟩ : fb_paninfo_s).fds.set i
                       (some { (⟨5, none⟩ : pollfd) with
                                 priv := some (((-1 : Int) + 1).toNat, i) })) })) },
           { (⟨5, none⟩ : pollfd) with priv := some (((-1 : Int) + 1).toNat, i) },
           if circbuf_is_full (⟨⟨2, [9]⟩, [some ⟨7, some (0, 0)⟩, none]⟩ : fb_paninfo_s).buf
           then [] else [(⟨5, none⟩ : pollfd).id])) ∧
     (firstFree (⟨⟨2, [9]⟩, [some ⟨7, some (0, 0)⟩, none]⟩ : fb_paninfo_s).fds = none →
       (∀ s ∈ (⟨⟨2, [9]⟩, [some ⟨7, some (0, 0)⟩, none]⟩ : fb_paninfo_s).fds, s.isSome) ∧
       fb_poll fbC5 ⟨5, none⟩ true (-1) = some (-EBUSY, fbC5, ⟨5, none⟩, [])) ∧
     ((∀ s ∈ (⟨⟨2, [9]⟩, [some ⟨7, some (0, 0)⟩, none]⟩ : fb_paninfo_s).fds, s.isSome) →
       firstFree (⟨⟨2, [9]⟩, [some ⟨7, some (0, 0)⟩, none]⟩ : fb_paninfo_s).fds = none) ∧
     (∀ sid i, (⟨5, none⟩ : pollfd).priv = some (sid, i) →
       ∀ pi2, fbC5.paninfo.get? sid = some pi2 →
       fb_poll fbC5 ⟨5, none⟩ false (-1) =
         some (0,
           { fbC5 with paninfo :=
               (fbC5.paninfo.set sid ({ pi2 with fds := pi2.fds.set i none })) },
           { (⟨5, none⟩ : pollfd) with priv := none }, []) ∧
       (∀ j, j ≠ i → (pi2.fds.set i none).get? j = pi2.fds.get? j))) :=
  ⟨by decide,
   @C5_poll_setup_teardown fbC5 (-1) ⟨⟨2, [9]⟩, [some ⟨7, some (0, 0)⟩, none]⟩
     (by decide) ⟨5, none⟩⟩

/-- The enqueue result code does not depend on the pan hook fields of the
vtable. -/
theorem fb_add_paninfo_code_hooks (P : Nat) (vt : fb_vtable_s) (info : List Nat)
    (o : Int) (pd1 pd2 po1 po2 : Option Int) :
    (fb_add_paninfo P { vt with pandisplay := pd1, panoverlay := po1 } info o).map
        (fun x => x.1) =
      (fb_add_paninfo P { vt with pandisplay := pd2, panoverlay := po2 } info o).map
        (fun x => x.1) := by
  unfold fb_add_paninfo
  cases hp : vt.priv with
  | none => simp [hp]
  | some fb =>
      cases hb : fb_get_panbuf fb o with
      | none => simp [hp, hb]
      | some panbuf => simp [hp, hb]

/-- C6: for both pan ioctl commands the return value of the optional
synchronous hardware pan hook is discarded: the ioctl result code equals
the result code of the subsequent enqueue whatever the hook returns or
whether it exists, so a failing hardware pan combined with a successful
enqueue still reports success. -/
theorem C6_pan_hook_discarded
    (P : Nat) (vt : fb_vtable_s) (rec1 rec2 : List Nat) (o : Int) (h : Int) :
    (∀ hk : Option Int,
       (fb_ioctl_pan_display P { vt with pandisplay := hk } rec1).map (fun x => x.1) =
         (fb_add_paninfo P vt rec1 FB_NO_OVERLAY).map (fun x => x.1)) ∧
    (∀ hk : Option Int,
       (fb_ioctl_pan_overlay P { vt with panoverlay := hk } rec2 o).map (fun x => x.1) =
         (fb_add_paninfo P vt rec2 o).map (fun x => x.1)) ∧
    (h < 0 →
      ((fb_add_paninfo P vt rec1 FB_NO_OVERLAY).map (fun x => x.1) = some 0 →
        (fb_ioctl_pan_display P { vt with pandisplay := some h } rec1).map (fun x => x.1) =
          some 0) ∧
      ((fb_add_paninfo P vt rec2 o).map (fun x => x.1) = some 0 →
        (fb_ioctl_pan_overlay P { vt with panoverlay := some h } rec2 o).map (fun x => x.1) =
          some 0)) := by
  have hd : ∀ hk : Option Int,
      (fb_ioctl_pan_display P { vt with pandisplay := hk } rec1).map (fun x => x.1) =
        (fb_add_paninfo P vt rec1 FB_NO_OVERLAY).map (fun x => x.1) := by
    intro hk
    have hcode := fb_add_paninfo_code_hooks P vt rec1 FB_NO_OVERLAY hk vt.pandisplay
      vt.panoverlay vt.panoverlay
    cases hk with
    | none => simpa [fb_ioctl_pan_display] using hcode
    | some r => simpa [fb_ioctl_pan_display] using hcode
  have ho : ∀ hk : Option Int,
      (fb_ioctl_pan_overlay P { vt with panoverlay := hk } rec2 o).map (fun x => x.1) =
        (fb_add_paninfo P vt rec2 o).map (fun x => x.1) := by
    intro hk
    have hcode := fb_add_paninfo_code_hooks P vt rec2 o vt.pandisplay vt.pandisplay
      hk vt.panoverlay
    cases hk with
    | none => simpa [fb_ioctl_pan_overlay] using hcode
    | some r => simpa [fb_ioctl_pan_overlay] using hcode
  exact ⟨hd, ho, fun _ =>
    ⟨fun he => (hd (some h)).trans he, fun he => (ho (some h)).trans he⟩⟩

/-- C6 witness: on a concrete device with room in the queue, a pan display
and a pan overlay ioctl whose hardware hook fails with -5 still return
success because the enqueue succeeds. -/
theorem C6_witness :
    ((-5 : Int) < 0) ∧
    ((∀ hk : Option Int,
       (fb_ioctl_pan_display 1 { vtE with pandisplay := hk } [7]).map (fun x => x.1) =
         (fb_add_paninfo 1 vtE [7] FB_NO_OVERLAY).map (fun x => x.1)) ∧
     (∀ hk : Option Int,
       (fb_ioctl_pan_overlay 1 { vtE with panoverlay := hk } [8] (-1)).map (fun x => x.1) =
         (fb_add_paninfo 1 vtE [8] (-1)).map (fun x => x.1)) ∧
     ((-5 : Int) < 0 →
       ((fb_add_paninfo 1 vtE [7] FB_NO_OVERLAY).map (fun x => x.1) = some 0 →
         (fb_ioctl_pan_display 1 { vtE with pandisplay := some (-5) } [7]).map
             (fun x => x.1) = some 0) ∧
       ((fb_add_paninfo 1 vtE [8] (-1)).map (fun x => x.1) = some 0 →
         (fb_ioctl_pan_overlay 1 { vtE with panoverlay := some (-5) } [8] (-1)).map
             (fun x => x.1) = some 0))) ∧
    (fb_ioctl_pan_display 1 { vtE with pandisplay := some (-5) } [7]).map
        (fun x => x.1) = some 0 :=
  ⟨by decide,
   C6_pan_hook_discarded 1 vtE [7] [8] (-1) (-5),
   by decide⟩

/-- A successful open without a hardware open hook always increments the
int16_t reference counter through the narrowing conversion. -/
theorem fb_open_incr (fb : fb_chardev_s) :
    (fb_open fb true none).2.1.crefs = wrap16 (fb.crefs + 1) := by
  unfold fb_open
  by_cases h : fb.crefs = 0 <;> simp [h]

/-- Below the int16_t limit the reference counter counts opens exactly. -/
theorem crefsAfterOpens_small : ∀ n : Nat, n ≤ 32767 → (crefsAfterOpens n).crefs = n := by
  intro n
  induction n with
  | zero => intro _; rfl
  | succ n ih =>
      intro hle
      have h1 : (crefsAfterOpens n).crefs = n := ih (by omega)
      show (fb_open (crefsAfterOpens n) true none).2.1.crefs = ((n + 1 : Nat) : Int)
      rw [fb_open_incr, h1]
      unfold wrap16
      rw [Int.emod_eq_of_lt (by omega) (by omega)]
      push_cast
      ring

/-- C7 (code bug): crefs is an int16_t, so the 32768th successful open
wraps the open-reference counter to -32768, a negative value, violating
both the claimed invariant and the code's own DEBUGASSERT that crefs stays
positive after an increment. -/
theorem C7_crefs_wraps_negative :
    (crefsAfterOpens 32768).crefs = -32768 ∧ (crefsAfterOpens 32768).crefs < 0 := by
  have h := crefsAfterOpens_small 32767 (by omega)
  have h2 : (crefsAfterOpens 32768).crefs = wrap16 ((32767 : Int) + 1) := by
    rw [show (32768 : Nat) = 32767 + 1 from rfl]
    rw [crefsAfterOpens]
    rw [fb_open_incr, h]
    norm_num
  rw [h2]
  constructor
  · decide
  · decide

/-- C8: when close finds the counter at 1 and the hardware close hook
fails, the counter is unchanged, the per-open-file state is not freed and
the hook error is returned, after which a retried close with a succeeding
hook frees it; when the hook succeeds, is absent, or the counter exceeds 1
(no hook call in the latter case), the counter is decremented and the
state freed. -/
theorem C8_close_failure_path (fb : fb_chardev_s) (e : Int) :
    (fb.crefs = 1 → e < 0 →
       fb_close fb (some e) = (e, fb, true, false) ∧
       fb_close ((fb_close fb (some e)).2.1) (some 0) =
         (0, { fb with crefs := 0 }, true, true)) ∧
    (fb.crefs = 1 → 0 ≤ e →
       fb_close fb (some e) = (e, { fb with crefs := 0 }, true, true)) ∧
    (fb.crefs = 1 → fb_close fb none = (0, { fb with crefs := 0 }, false, true)) ∧
    (1 < fb.crefs → fb.crefs ≤ 32767 → ∀ hk : Option Int,
       fb_close fb hk = (0, { fb with crefs := fb.crefs - 1 }, false, true)) := by
  have hw0 : wrap16 0 = 0 := by decide
  refine ⟨?_, ?_, ?_, ?_⟩
  · intro hc he
    have hfst : fb_close fb (some e) = (e, fb, true, false) := by
      unfold fb_close
      simp [hc, not_le.mpr he]
    refine ⟨hfst, ?_⟩
    rw [hfst]
    unfold fb_close
    simp [hc, hw0]
  · intro hc he
    unfold fb_close
    simp [hc, he, hw0]
  · intro hc
    unfold fb_close
    simp [hc, hw0]
  · intro hgt hle hk
    have hne : ¬fb.crefs = 1 := by omega
    have hwc : wrap16 (fb.crefs - 1) = fb.crefs - 1 := by
      unfold wrap16
      rw [Int.emod_eq_of_lt (by omega) (by omega)]
      ring
    unfold fb_close
    simp [hne, hwc]

/-- C8 witness: the theorem instantiated at a device with one open
reference and a close hook failing with -5. -/
theorem C8_witness :
    (fbC8.crefs = 1 ∧ (-5 : Int) < 0) ∧
    ((fbC8.crefs = 1 → (-5 : Int) < 0 →
       fb_close fbC8 (some (-5)) = (-5, fbC8, true, false) ∧
       fb_close ((fb_close fbC8 (some (-5))).2.1) (some 0) =
         (0, { fbC8 with crefs := 0 }, true, true)) ∧
     (fbC8.crefs = 1 → (0 : Int) ≤ -5 →
       fb_close fbC8 (some (-5)) = (-5, { fbC8 with crefs := 0 }, true, true)) ∧
     (fbC8.crefs = 1 → fb_close fbC8 none = (0, { fbC8 with crefs := 0 }, false, true)) ∧
     (1 < fbC8.crefs → fbC8.crefs ≤ 32767 → ∀ hk : Option Int,
       fb_close fbC8 hk = (0, { fbC8 with crefs := fbC8.crefs - 1 }, false, true))) :=
  ⟨⟨by decide, by decide⟩, C8_close_failure_path fbC8 (-5)⟩

/-- C9: a write starting at or past the end of the selected surface's
buffer fails -EFBIG; a write starting inside the buffer transfers
min(len, L - offset) bytes, silently truncating a request that would pass
the end to the remaining space L - offset, returns that count as success
and advances the file position by it. -/
theorem C9_write_boundary (panelinfo : fb_panelinfo_s) (pos : Nat) (buffer : List Nat) :
    (panelinfo.fblen ≤ pos →
       fb_write panelinfo pos buffer = (-EFBIG, pos, panelinfo.fbmem)) ∧
    (pos < panelinfo.fblen →
       (fb_write panelinfo pos buffer).1 =
         ((min buffer.length (panelinfo.fblen - pos) : Nat) : Int) ∧
       (fb_write panelinfo pos buffer).2.1 =
         pos + min buffer.length (panelinfo.fblen - pos)) ∧
    (pos < panelinfo.fblen → panelinfo.fblen ≤ pos + buffer.length →
       (fb_write panelinfo pos buffer).1 = ((panelinfo.fblen - pos : Nat) : Int) ∧
       (fb_write panelinfo pos buffer).2.1 = panelinfo.fblen) := by
  have hval : pos < panelinfo.fblen →
      (fb_write panelinfo pos buffer).1 =
        ((min buffer.length (panelinfo.fblen - pos) : Nat) : Int) ∧
      (fb_write panelinfo pos buffer).2.1 =
        pos + min buffer.length (panelinfo.fblen - pos) := by
    intro h
    unfold fb_write
    rw [if_neg (not_le.mpr h)]
    by_cases h2 : panelinfo.fblen ≤ pos + buffer.length
    · have hm : min buffer.length (panelinfo.fblen - pos) = panelinfo.fblen - pos := by
        omega
      simp [h2, hm]
    · have hm : min buffer.length (panelinfo.fblen - pos) = buffer.length := by omega
      simp [h2, hm]
  refine ⟨?_, hval, ?_⟩
  · intro h
    simp [fb_write, h]
  · intro h h2
    have hm : min buffer.length (panelinfo.fblen - pos) = panelinfo.fblen - pos := by
      omega
    obtain ⟨ha, hb⟩ := hval h
    rw [hm] at ha hb
    exact ⟨ha, by omega⟩

/-- C9 witness: on a 20-byte surface, a 10-byte write at offset 15 writes
5 bytes, returns 5 and advances the position to 20; a write at offset 20
fails -EFBIG. -/
theorem C9_witness :
    ((20 ≤ (25 : Nat)) ∧ (15 : Nat) < 20 ∧ (20 : Nat) ≤ 15 + 10) ∧
    ((piC9.fblen ≤ 15 →
       fb_write piC9 15 (List.replicate 10 1) = (-EFBIG, 15, piC9.fbmem)) ∧
     (15 < piC9.fblen →
       (fb_write piC9 15 (List.replicate 10 1)).1 =
         ((min (List.replicate 10 1).length (piC9.fblen - 15) : Nat) : Int) ∧
       (fb_write piC9 15 (List.replicate 10 1)).2.1 =
         15 + min (List.replicate 10 1).length (piC9.fblen - 15)) ∧
     (15 < piC9.fblen → piC9.fblen ≤ 15 + (List.replicate 10 1).length →
       (fb_write piC9 15 (List.replicate 10 1)).1 = ((piC9.fblen - 15 : Nat) : Int) ∧
       (fb_write piC9 15 (List.replicate 10 1)).2.1 = piC9.fblen)) ∧
    (fb_write piC9 15 (List.replicate 10 1)).1 = 5 ∧
    (fb_write piC9 15 (List.replicate 10 1)).2.1 = 20 ∧
    (fb_write piC9 20 (List.replicate 10 1)).1 = -EFBIG :=
  ⟨⟨by decide, by decide, by decide⟩,
   C9_write_boundary piC9 15 (List.replicate 10 1),
   by decide, by decide, by decide⟩

/-- C10: a read starting at or past the end of the selected surface's
buffer returns 0 (end of file), never an error; a read starting inside the
buffer is clamped to the interval from the offset to the end, returning
min(len, L - offset) bytes copied from that range and advancing the file
position by the returned count. -/
theorem C10_read_boundary (panelinfo : fb_panelinfo_s) (pos len : Nat) :
    (panelinfo.fblen ≤ pos → fb_read panelinfo pos len = (0, pos, [])) ∧
    (pos < panelinfo.fblen →
       (fb_read panelinfo pos len).1 =
         ((min len (panelinfo.fblen - pos) : Nat) : Int) ∧
       (fb_read panelinfo pos len).2.1 = pos + min len (panelinfo.fblen - pos) ∧
       (fb_read panelinfo pos len).2.2 =
         (panelinfo.fbmem.drop pos).take (min len (panelinfo.fblen - pos))) ∧
    (pos < panelinfo.fblen → panelinfo.fblen ≤ pos + len →
       (fb_read panelinfo pos len).1 = ((panelinfo.fblen - pos : Nat) : Int)) := by
  have hval : pos < panelinfo.fblen →
      (fb_read panelinfo pos len).1 =
        ((min len (panelinfo.fblen - pos) : Nat) : Int) ∧
      (fb_read panelinfo pos len).2.1 = pos + min len (panelinfo.fblen - pos) ∧
      (fb_read panelinfo pos len).2.2 =
        (panelinfo.fbmem.drop pos).take (min len (panelinfo.fblen - pos)) := by
    intro h
    unfold fb_read
    rw [if_neg (not_le.mpr h)]
    by_cases h2 : panelinfo.fblen ≤ pos + len
    · have hm : min len (panelinfo.fblen - pos) = panelinfo.fblen - pos := by omega
      simp [h2, hm]
    · have hm : min len (panelinfo.fblen - pos) = len := by omega
      simp [h2, hm]
  refine ⟨?_, hval, ?_⟩
  · intro h
    simp [fb_read, h]
  · intro h h2
    have hm : min len (panelinfo.fblen - pos) = panelinfo.fblen - pos := by omega
    have ha := (hval h).1
    rw [hm] at ha
    exact ha

/-- C10 witness: on a 9-byte surface, a 10-byte read at offset 8 returns
exactly 1 byte (the last one) and advances the position to 9; a read at
offset 9 returns 0, end of file. -/
theorem C10_witness :
    ((8 : Nat) < 9 ∧ (9 : Nat) ≤ 8 + 10) ∧
    ((piC10.fblen ≤ 8 → fb_read piC10 8 10 = (0, 8, [])) ∧
     (8 < piC10.fblen →
       (fb_read piC10 8 10).1 = ((min 10 (piC10.fblen - 8) : Nat) : Int) ∧
       (fb_read piC10 8 10).2.1 = 8 + min 10 (piC10.fblen - 8) ∧
       (fb_read piC10 8 10).2.2 = (piC10.fbmem.drop 8).take (min 10 (piC10.fblen - 8))) ∧
     (8 < piC10.fblen → piC10.fblen ≤ 8 + 10 →
       (fb_read piC10 8 10).1 = ((piC10.fblen - 8 : Nat) : Int))) ∧
    fb_read piC10 8 10 = (1, 9, [8]) ∧
    fb_read piC10 9 10 = (0, 9, []) :=
  ⟨⟨by decide, by decide⟩, C10_read_boundary piC10 8 10, by decide, by decide⟩

end Fb
